import Mathlib

/-!
Shallow embedding of `database_corrector.py` (class `DatabaseCorrector`).

The Python class inspects a source and a target database, computes a list of
human-readable difference messages (`compare_schemas`), and then re-parses
those messages to drive corrective methods (`add_table`, `create_table`,
`add_column`, `add_index`) executed against the target
(`correct_schema`).  Databases are modelled as normalized schema snapshots
(`Schema`); the live inspector call `inspector.get_table(name)` is modelled
as a lookup returning `Option Table` (the code checks its result against
`None`); executing one DDL statement inside one transaction
(`async with self.target_engine.begin()`) is modelled by `with_tx` over a
model of the target DBMS (`exec_ddl`).
-/

namespace DC

/-- Normalized column: name, declared type rendered as text, nullability. -/
structure Column where
  name : String
  type : String
  nullable : Bool
  deriving DecidableEq, Repr

/-- Normalized index: name, ordered list of covered column names, uniqueness. -/
structure Index where
  name : String
  columns : List String
  unique : Bool
  deriving DecidableEq, Repr

/-- Normalized table: name, columns, indexes. -/
structure Table where
  name : String
  columns : List Column
  indexes : List Index
  deriving DecidableEq, Repr

/-- Normalized snapshot of one database. -/
structure Schema where
  tables : List Table
  deriving DecidableEq, Repr

/-- First table with the given name, like the code's `inspector.get_table`. -/
def findTable : List Table → String → Option Table
  | [], _ => none
  | t :: ts, n => if t.name == n then some t else findTable ts n

/-- Lookup of a table in a schema; `none` models Python `None`. -/
def get_table (s : Schema) (table_name : String) : Option Table :=
  findTable s.tables table_name

/-- Table names of a schema, as `inspector.get_table_names()`. -/
def tableNames (s : Schema) : List String :=
  s.tables.map (fun t => t.name)

/-- Membership test on a list of names, as Python `x in [ ... ]`. -/
def strListHas : List String → String → Bool
  | [], _ => false
  | x :: xs, n => (n == x) || strListHas xs n

/-- First column with the given name, as `next((c for c in ...), None)`. -/
def findCol : List Column → String → Option Column
  | [], _ => none
  | c :: cs, n => if c.name == n then some c else findCol cs n

/-- First index with the given name, as `next((i for i in ...), None)`. -/
def findIdx : List Index → String → Option Index
  | [], _ => none
  | i :: is, n => if i.name == n then some i else findIdx is n

/-- Concatenation of per-element lists, as the loop appending per table. -/
def flatConcat : List String → (String → List String) → List String
  | [], _ => []
  | n :: ns, f => f n ++ flatConcat ns f

/-- Deduplicated union, determinizing Python `set(a) | set(b)` iteration. -/
def unionNamesAux : List String → List String → List String
  | [], _ => []
  | n :: ns, seen =>
    if strListHas seen n then unionNamesAux ns seen
    else n :: unionNamesAux ns (n :: seen)

/-- The iterated union of source and target table names. -/
def unionNames (source target : Schema) : List String :=
  unionNamesAux (tableNames source ++ tableNames target) []

/-- Splitting accumulator over characters, for Python `str.split(" ")`. -/
def splitChars (sep : Char) : List Char → List Char → List String
  | [], acc => [String.mk acc.reverse]
  | c :: cs, acc =>
    if c == sep then String.mk acc.reverse :: splitChars sep cs []
    else splitChars sep cs (c :: acc)

/-- Python `s.split(" ")`. -/
def splitOnSpace (s : String) : List String :=
  splitChars ' ' s.toList []

/-- Whether `hay` starts with `needle`, over character lists. -/
def matchesAt : List Char → List Char → Bool
  | [], _ => true
  | _ :: _, [] => false
  | a :: as, b :: bs => (a == b) && matchesAt as bs

/-- Whether `needle` occurs somewhere in `hay`, over character lists. -/
def charsContain (needle : List Char) : List Char → Bool
  | [] => needle.isEmpty
  | c :: rest => matchesAt needle (c :: rest) || charsContain needle rest

/-- Python substring containment `needle in hay`. -/
def strContains (hay needle : String) : Bool :=
  charsContain needle.toList hay.toList

/-- The empty string. -/
def emptyStr : String :=
  String.mk []

/-- Python `s.split(" ")[-1]`. -/
def lastToken (s : String) : String :=
  (splitOnSpace s).getLastD emptyStr

/-- Python `s.split(" ")[-2]` (first of the last two words). -/
def penultToken (s : String) : String :=
  ((splitOnSpace s).dropLast).getLastD emptyStr

/-- Python `", ".join(...)`. -/
def joinComma : List String → String
  | [] => emptyStr
  | [x] => x
  | x :: y :: xs => x ++ ", " ++ joinComma (y :: xs)

/-- Message phrase `Добавлена таблица` (table present only in target). -/
def phraseAdded : String :=
  "Добавлена таблица"

/-- Message phrase `Отсутствует таблица` (table missing in target). -/
def phraseMissingTable : String :=
  "Отсутствует таблица"

/-- Message phrase `отсутствует колонка` (column missing in target). -/
def phraseMissingColumn : String :=
  "отсутствует колонка"

/-- Message phrase `отсутствует индекс` (index missing in target). -/
def phraseMissingIdx : String :=
  "отсутствует индекс"

/-- Message `В таблице {t} отсутствует колонка {c}`. -/
def msgColMissing (table_name col_name : String) : String :=
  "В таблице " ++ table_name ++ " " ++ phraseMissingColumn ++ " " ++ col_name

/-- Message `В таблице {t} отсутствует индекс {i}`. -/
def msgIdxMissing (table_name idx_name : String) : String :=
  "В таблице " ++ table_name ++ " " ++ phraseMissingIdx ++ " " ++ idx_name

/-- The body of the per-table comparison loop in `compare_schemas`
(lines 21-44): source table absent, target table absent, or per-column and
per-index one-directional membership checks over the source table. -/
def compare_one (source target : Schema) (table_name : String) : List String :=
  match get_table source table_name with
  | none => [phraseAdded ++ " " ++ table_name]
  | some source_table =>
    match get_table target table_name with
    | none => [phraseMissingTable ++ " " ++ table_name]
    | some target_table =>
      ((source_table.columns.filter
          (fun col => !(strListHas (target_table.columns.map (fun c => c.name)) col.name))).map
        (fun col => msgColMissing table_name col.name))
      ++ ((source_table.indexes.filter
          (fun idx => !(strListHas (target_table.indexes.map (fun i => i.name)) idx.name))).map
        (fun idx => msgIdxMissing table_name idx.name))

/-- `compare_schemas` with per-table `OperationalError` modelled: tables in
`failing` raise inside the `try` block and the `except OperationalError:
continue` skips them, appending nothing. -/
def compare_schemas_exc (source target : Schema) (failing : List String) : List String :=
  flatConcat (unionNames source target)
    (fun n => if strListHas failing n then [] else compare_one source target n)

/-- `DatabaseCorrector.compare_schemas` (lines 13-47) with no table raising. -/
def compare_schemas (source target : Schema) : List String :=
  compare_schemas_exc source target []

/-- A single DDL statement as sent to the target; rendered to its raw
statement text by `ddl_text`. -/
inductive DDL
  | createTable (t : Table)
  | addColumn (table_name : String) (col : Column)
  | createIndex (idx_name table_name : String) (columns : List String)
  deriving DecidableEq, Repr

/-- The raw statement text of one DDL value.  For `addColumn` and
`createIndex` this is exactly the code's f-string (lines 106-110 and
127-130), with `col.compile(dialect=...)` rendered as `name type`; the
`createTable` branch models the statement SQLAlchemy emits from
`new_table.create(...)` (never reached at run time, see `add_table`). -/
def ddl_text : DDL → String
  | DDL.createTable t => "CREATE TABLE " ++ t.name
  | DDL.addColumn table_name col =>
      "\n                ALTER TABLE " ++ table_name ++
      "\n                ADD COLUMN " ++ col.name ++ " " ++ col.type ++
      "\n            "
  | DDL.createIndex idx_name table_name columns =>
      "\n                CREATE INDEX " ++ idx_name ++
      "\n                ON " ++ table_name ++ " (" ++ joinComma columns ++ ")" ++
      "\n            "

/-- Replace the table named `tn` in a schema. -/
def replaceTable (s : Schema) (tn : String) (t' : Table) : Schema :=
  Schema.mk (s.tables.map (fun t => if t.name == tn then t' else t))

/-- Model of the target DBMS executing one DDL statement: creating an
existing table, altering a missing table, adding a duplicate column,
re-using an index name or indexing a missing column fails; a plain
`CREATE INDEX` records a non-unique index. -/
def exec_ddl (target : Schema) : DDL → Except String Schema
  | DDL.createTable t =>
      if (get_table target t.name).isSome then Except.error ("table exists: " ++ t.name)
      else Except.ok (Schema.mk (target.tables ++ [t]))
  | DDL.addColumn table_name col =>
      match get_table target table_name with
      | none => Except.error ("no such table: " ++ table_name)
      | some tb =>
        if strListHas (tb.columns.map (fun c => c.name)) col.name then
          Except.error ("duplicate column: " ++ col.name)
        else
          Except.ok (replaceTable target table_name
            (Table.mk tb.name (tb.columns ++ [col]) tb.indexes))
  | DDL.createIndex idx_name table_name columns =>
      match get_table target table_name with
      | none => Except.error ("no such table: " ++ table_name)
      | some tb =>
        if strListHas (tb.indexes.map (fun i => i.name)) idx_name then
          Except.error ("duplicate index: " ++ idx_name)
        else if columns.all (fun c => strListHas (tb.columns.map (fun x => x.name)) c) then
          Except.ok (replaceTable target table_name
            (Table.mk tb.name tb.columns (tb.indexes ++ [Index.mk idx_name columns false])))
        else Except.error ("no such column in: " ++ table_name)

/-- Transaction events observable on the target connection. -/
inductive TxEvent
  | begin
  | exec (d : DDL)
  | commit
  | rollback
  deriving DecidableEq, Repr

/-- Result of running one corrective method: the target schema afterwards,
the transaction events it produced, and the exception it raised, if any. -/
structure ActionResult where
  target : Schema
  events : List TxEvent
  err : Option String
  deriving DecidableEq, Repr

/-- `async with self.target_engine.begin() as conn` around one statement:
begin, execute, commit on success; on failure roll back (leaving the target
unchanged) and re-raise. -/
def with_tx (target : Schema) (d : DDL) : ActionResult :=
  match exec_ddl target d with
  | Except.ok t' => ActionResult.mk t' [TxEvent.begin, TxEvent.exec d, TxEvent.commit] none
  | Except.error e =>
      ActionResult.mk target [TxEvent.begin, TxEvent.exec d, TxEvent.rollback] (some e)

/-- The `DatabaseCorrector` object: `__init__` (lines 9-11) assigns only the
two engines; the attribute `metadata`, read later by `add_table` and
`create_table`, is never assigned, modelled as an `Option` left `none`. -/
structure DatabaseCorrector where
  source_engine : Schema
  target_engine : Schema
  metadata : Option Unit
  deriving DecidableEq, Repr

/-- `DatabaseCorrector.__init__`: stores the engines, never sets `metadata`. -/
def DatabaseCorrector.init (source target : Schema) : DatabaseCorrector :=
  DatabaseCorrector.mk source target none

/-- The Python `AttributeError` raised on reading the unset `self.metadata`. -/
def attrErr : String :=
  "AttributeError: DatabaseCorrector object has no attribute metadata"

/-- The table definition built in `add_table`and `create_table` (lines
73-74 / 86-87): `Column(col.name, col.type)` keeps name and type and takes
the default nullability, `Index(idx.name, *[idx.columns])` keeps name and
columns and takes the default (non-unique) flag. -/
def copyTable (table_name : String) (t : Table) : Table :=
  Table.mk table_name
    (t.columns.map (fun c => Column.mk c.name c.type true))
    (t.indexes.map (fun i => Index.mk i.name i.columns false))

/-- `DatabaseCorrector.add_table` (lines 67-78): source lookup, early return
on `None`, then the read of the unset `self.metadata` (line 75) raises
before the transaction; the unreachable success branch would create the
copied table. -/
def add_table (self : DatabaseCorrector) (table_name : String) : ActionResult :=
  match get_table self.source_engine table_name with
  | none => ActionResult.mk self.target_engine [] none
  | some table =>
    match self.metadata with
    | none => ActionResult.mk self.target_engine [] (some attrErr)
    | some _ => with_tx self.target_engine (DDL.createTable (copyTable table_name table))

/-- `DatabaseCorrector.create_table` (lines 80-91): identical to `add_table`
except for the log text, which is not modelled. -/
def create_table (self : DatabaseCorrector) (table_name : String) : ActionResult :=
  match get_table self.source_engine table_name with
  | none => ActionResult.mk self.target_engine [] none
  | some table =>
    match self.metadata with
    | none => ActionResult.mk self.target_engine [] (some attrErr)
    | some _ => with_tx self.target_engine (DDL.createTable (copyTable table_name table))

/-- `DatabaseCorrector.add_column` (lines 93-112): source table and column
lookups, early return on `None`, then `ALTER TABLE ... ADD COLUMN ...` in
its own transaction. -/
def add_column (self : DatabaseCorrector) (table_name col_name : String) : ActionResult :=
  match get_table self.source_engine table_name with
  | none => ActionResult.mk self.target_engine [] none
  | some table =>
    match findCol table.columns col_name with
    | none => ActionResult.mk self.target_engine [] none
    | some col => with_tx self.target_engine (DDL.addColumn table_name col)

/-- `DatabaseCorrector.add_index` (lines 114-134): source table and index
lookups, early return on `None`, then `CREATE INDEX {idx_name} ON
{table_name} (cols)` in its own transaction; the index uniqueness flag is
not consulted anywhere. -/
def add_index (self : DatabaseCorrector) (table_name idx_name : String) : ActionResult :=
  match get_table self.source_engine table_name with
  | none => ActionResult.mk self.target_engine [] none
  | some table =>
    match findIdx table.indexes idx_name with
    | none => ActionResult.mk self.target_engine [] none
    | some idx => with_tx self.target_engine (DDL.createIndex idx_name table_name idx.columns)

/-- The corrective call a difference message is parsed into (lines 51-64):
substring tests on the message, table name from `split(" ")[-1]`, and for
columns/indexes the pair `split(" ")[-2:]`. -/
inductive ActionCall
  | callAddTable (n : String)
  | callCreateTable (n : String)
  | callAddColumn (t c : String)
  | callAddIdx (t i : String)
  | noCall
  deriving DecidableEq, Repr

/-- The parsing chain of `correct_schema` (lines 53-64). -/
def parse_action (diff : String) : ActionCall :=
  if strContains diff phraseAdded then ActionCall.callAddTable (lastToken diff)
  else if strContains diff phraseMissingTable then ActionCall.callCreateTable (lastToken diff)
  else if strContains diff phraseMissingColumn then
    ActionCall.callAddColumn (penultToken diff) (lastToken diff)
  else if strContains diff phraseMissingIdx then
    ActionCall.callAddIdx (penultToken diff) (lastToken diff)
  else ActionCall.noCall

/-- The action plan of one run: every difference message, parsed. -/
def plan (source target : Schema) : List ActionCall :=
  (compare_schemas source target).map parse_action

/-- Dispatch of one parsed difference message to its corrective method. -/
def dispatch (self : DatabaseCorrector) (diff : String) : ActionResult :=
  match parse_action diff with
  | ActionCall.callAddTable n => add_table self n
  | ActionCall.callCreateTable n => create_table self n
  | ActionCall.callAddColumn t c => add_column self t c
  | ActionCall.callAddIdx t i => add_index self t i
  | ActionCall.noCall => ActionResult.mk self.target_engine [] none

/-- The `for diff in differences` loop of `correct_schema` (lines 51-64):
actions run in order against the evolving target; an exception raised by
one action propagates and aborts the loop (there is no try/except). -/
def correct_schema_loop : DatabaseCorrector → List String → Schema × List TxEvent × Option String
  | self, [] => (self.target_engine, [], none)
  | self, d :: ds =>
    let r := dispatch self d
    match r.err with
    | some e => (r.target, r.events, some e)
    | none =>
      let rest := correct_schema_loop (DatabaseCorrector.mk self.source_engine r.target self.metadata) ds
      (rest.1, r.events ++ rest.2.1, rest.2.2)

/-- `DatabaseCorrector.correct_schema` (lines 49-65): compute the
differences once, then run the corrective loop. -/
def correct_schema (self : DatabaseCorrector) : Schema × List TxEvent × Option String :=
  correct_schema_loop self (compare_schemas self.source_engine self.target_engine)

/-! ## Helper lemmas -/

theorem flatConcat_eq_nil (l : List String) (f : String → List String)
    (h : ∀ n ∈ l, f n = []) : flatConcat l f = [] := by
  induction l with
  | nil => rfl
  | cons n ns ih =>
    simp only [flatConcat, h n (List.mem_cons_self n ns),
      ih (fun m hm => h m (List.mem_cons_of_mem n hm)), List.nil_append]

theorem flatConcat_congr (l : List String) (f g : String → List String)
    (h : ∀ n ∈ l, f n = g n) : flatConcat l f = flatConcat l g := by
  induction l with
  | nil => rfl
  | cons n ns ih =>
    simp only [flatConcat, h n (List.mem_cons_self n ns),
      ih (fun m hm => h m (List.mem_cons_of_mem n hm))]

theorem mem_unionNamesAux (l seen : List String) (n : String)
    (h : n ∈ unionNamesAux l seen) : n ∈ l := by
  induction l generalizing seen with
  | nil => simp [unionNamesAux] at h
  | cons m ms ih =>
    simp only [unionNamesAux] at h
    by_cases hc : strListHas seen m = true
    · simp only [hc, if_true] at h
      exact List.mem_cons_of_mem m (ih _ h)
    · simp only [hc, if_false] at h
      rcases List.mem_cons.mp h with h | h
      · exact h ▸ List.mem_cons_self m ms
      · exact List.mem_cons_of_mem m (ih _ h)

theorem strListHas_of_mem (l : List String) (n : String) (h : n ∈ l) :
    strListHas l n = true := by
  induction l with
  | nil => simp at h
  | cons m ms ih =>
    rcases List.mem_cons.mp h with h | h
    · simp [strListHas, h]
    · simp [strListHas, ih h]

theorem strListHas_append (a b : List String) (n : String) :
    strListHas (a ++ b) n = (strListHas a n || strListHas b n) := by
  induction a with
  | nil => simp [strListHas]
  | cons m ms ih => simp [strListHas, ih, Bool.or_assoc]

theorem filter_false_eq_nil {α : Type} (p : α → Bool) (l : List α)
    (h : ∀ a ∈ l, p a = false) : l.filter p = [] := by
  induction l with
  | nil => rfl
  | cons a as ih =>
    simp only [List.filter_cons, h a (List.mem_cons_self a as), ite_false,
      Bool.false_eq_true]
    exact ih (fun b hb => h b (List.mem_cons_of_mem a hb))

theorem filter_congr_own {α : Type} (p q : α → Bool) (l : List α)
    (h : ∀ a ∈ l, p a = q a) : l.filter p = l.filter q := by
  induction l with
  | nil => rfl
  | cons a as ih =>
    simp only [List.filter_cons, h a (List.mem_cons_self a as),
      ih (fun b hb => h b (List.mem_cons_of_mem a hb))]

theorem findTable_name (l : List Table) (n : String) (t : Table)
    (h : findTable l n = some t) : t.name = n := by
  induction l with
  | nil => simp [findTable] at h
  | cons u us ih =>
    simp only [findTable] at h
    by_cases hu : u.name == n
    · simp only [hu, if_true, Option.some.injEq] at h
      exact h ▸ eq_of_beq hu
    · simp only [hu, if_false] at h
      exact ih h

theorem exists_findTable (l : List Table) (n : String)
    (h : n ∈ l.map (fun t => t.name)) : ∃ t, findTable l n = some t := by
  induction l with
  | nil => simp at h
  | cons u us ih =>
    simp only [List.map_cons, List.mem_cons] at h
    by_cases hu : u.name == n
    · exact ⟨u, by simp [findTable, hu]⟩
    · rcases h with h | h
      · exact absurd (beq_iff_eq.mpr h.symm) hu
      · obtain ⟨t, ht⟩ := ih h
        exact ⟨t, by simp [findTable, hu, ht]⟩

theorem findTable_map (f : Table → Table) (hf : ∀ t, (f t).name = t.name)
    (l : List Table) (n : String) :
    findTable (l.map f) n = (findTable l n).map f := by
  induction l with
  | nil => rfl
  | cons u us ih =>
    simp only [List.map_cons, findTable, hf u]
    by_cases hu : u.name == n
    · simp [hu]
    · simp [hu, ih]

theorem mapName_of_preserve (f : Table → Table) (hf : ∀ t, (f t).name = t.name)
    (l : List Table) :
    (l.map f).map (fun t => t.name) = l.map (fun t => t.name) := by
  induction l with
  | nil => rfl
  | cons u us ih => simp [hf u, ih]

theorem findIdx_none_of_not_has (l : List Index) (n : String)
    (h : strListHas (l.map (fun i => i.name)) n = false) : findIdx l n = none := by
  induction l with
  | nil => rfl
  | cons i is ih =>
    simp only [List.map_cons, strListHas, Bool.or_eq_false_iff] at h
    simp only [findIdx]
    have hne : (i.name == n) = false := by
      cases hb : i.name == n
      · rfl
      · exfalso
        have hn : n = i.name := (eq_of_beq hb).symm
        rw [hn, beq_self_eq_true] at h
        simp at h
    simp only [hne, if_false]
    exact ih h.2

theorem findIdx_append_left_none (a b : List Index) (n : String)
    (h : findIdx a n = none) : findIdx (a ++ b) n = findIdx b n := by
  induction a with
  | nil => rfl
  | cons i is ih =>
    simp only [findIdx] at h ⊢
    by_cases hi : i.name == n
    · simp [hi] at h
    · simp only [hi, if_false] at h ⊢
      exact ih h

/-! ## Claim theorems -/

/-- C2: for every schema model `S`, `compare_schemas S S` is the empty list:
comparing a schema with itself produces no difference messages. -/
theorem compare_schemas_self_empty (S : Schema) : compare_schemas S S = [] := by
  unfold compare_schemas compare_schemas_exc
  apply flatConcat_eq_nil
  intro n hn
  simp only [strListHas, if_false, Bool.false_eq_true]
  have hmem : n ∈ tableNames S := by
    rcases List.mem_append.mp (mem_unionNamesAux _ _ _ hn) with h | h <;> exact h
  obtain ⟨t, ht⟩ := exists_findTable S.tables n hmem
  have hcols : ∀ col ∈ t.columns,
      (!(strListHas (t.columns.map (fun c => c.name)) col.name)) = false := by
    intro col hc
    simp [strListHas_of_mem _ _ (List.mem_map_of_mem (fun c => c.name) hc)]
  have hidxs : ∀ idx ∈ t.indexes,
      (!(strListHas (t.indexes.map (fun i => i.name)) idx.name)) = false := by
    intro idx hi
    simp [strListHas_of_mem _ _ (List.mem_map_of_mem (fun i => i.name) hi)]
  simp [compare_one, get_table, ht, filter_false_eq_nil _ _ hcols,
    filter_false_eq_nil _ _ hidxs]

/-! ## Concrete sample schemas -/

/-- Source with `users(id, email)`. -/
def srcC1 : Schema :=
  Schema.mk [Table.mk ("users")
    [Column.mk ("id") ("INTEGER") true, Column.mk ("email") ("VARCHAR") true] []]

/-- Target with `users(id)` only. -/
def tgtC1 : Schema :=
  Schema.mk [Table.mk ("users") [Column.mk ("id") ("INTEGER") true] []]

/-- Source with `users(id)` and no `orders` table. -/
def srcC3 : Schema :=
  Schema.mk [Table.mk ("users") [Column.mk ("id") ("INTEGER") true] []]

/-- Target with `orders(oid)` and no `users` table. -/
def tgtC3 : Schema :=
  Schema.mk [Table.mk ("orders") [Column.mk ("oid") ("INTEGER") true] []]

/-- Source with table `b(x)` and a table literally named `колонка(email)`:
the second exists so that the column-difference action after the failing
table-creation action would genuinely change the target if it ran. -/
def srcC5 : Schema :=
  Schema.mk [Table.mk ("b") [Column.mk ("x") ("INTEGER") true] [],
    Table.mk ("колонка") [Column.mk ("email") ("VARCHAR") true] []]

/-- Target with the table named `колонка`, without its `email` column. -/
def tgtC5 : Schema :=
  Schema.mk [Table.mk ("колонка") [] []]

/-! ## Claim theorems (continued) -/

/-- C1 (refuted on the code, documenting the bug): on source `users(id,
email)` versus target `users(id)` the full correction pass runs to
completion with no execution failure and no concurrent change, yet the
re-introspected diff still contains the very same `ColumnMissing` entry:
`correct_schema` re-parses the message with `split(" ")[-2:]`, takes the
literal word `колонка` as the table name, and `add_column` then fails to
find that table in the source and does nothing. -/
theorem correct_schema_no_convergence :
    compare_schemas srcC1 tgtC1 = [msgColMissing ("users") ("email")]
    ∧ parse_action (msgColMissing ("users") ("email"))
        = ActionCall.callAddColumn ("колонка") ("email")
    ∧ correct_schema (DatabaseCorrector.init srcC1 tgtC1) = (tgtC1, [], none)
    ∧ compare_schemas srcC1 (correct_schema (DatabaseCorrector.init srcC1 tgtC1)).1
        = [msgColMissing ("users") ("email")] := by
  decide

/-- C3 (counterexample to the claim as stated): with source `users(id)` and
target `orders(oid)`, the `TableMissingInSource` difference for `orders`
dispatches to `add_table`, which looks `orders` up in the *source*, finds
nothing and returns without executing any `CreateTable`; and the
`TableMissingInTarget` difference for `users` dispatches to
`create_table`, which dies on the unset `metadata` attribute, also
executing nothing. -/
theorem table_diffs_no_create_cx :
    compare_schemas srcC3 tgtC3
      = [phraseMissingTable ++ " " ++ ("users"), phraseAdded ++ " " ++ ("orders")]
    ∧ add_table (DatabaseCorrector.init srcC3 tgtC3) ("orders")
        = ActionResult.mk tgtC3 [] none
    ∧ create_table (DatabaseCorrector.init srcC3 tgtC3) ("users")
        = ActionResult.mk tgtC3 [] (some attrErr) := by
  decide

/-- C3 (amended): both table-level differences resolve to the same
corrective behaviour — `add_table` and `create_table` are identical — but
on a corrector built by `__init__` neither ever executes a `CreateTable`
against the target: no transaction event is produced and the target is
returned unchanged, whatever the schemas and table name. -/
theorem add_table_create_table_same_noop (S T : Schema) (table_name : String) :
    add_table (DatabaseCorrector.init S T) table_name
        = create_table (DatabaseCorrector.init S T) table_name
    ∧ (add_table (DatabaseCorrector.init S T) table_name).events = []
    ∧ (add_table (DatabaseCorrector.init S T) table_name).target = T := by
  refine ⟨rfl, ?_, ?_⟩ <;>
    cases h : get_table S table_name <;>
      simp [add_table, DatabaseCorrector.init, h]

/-- C4: whenever the table to create exists in the source database, both
table-creation methods read the attribute `metadata`, which `__init__`
never initializes; the attribute access raises before any DDL is issued —
no transaction event occurs and the target is unchanged. -/
theorem create_table_metadata_error (S T : Schema) (table_name : String)
    (t : Table) (h : get_table S table_name = some t) :
    create_table (DatabaseCorrector.init S T) table_name
        = ActionResult.mk T [] (some attrErr)
    ∧ add_table (DatabaseCorrector.init S T) table_name
        = ActionResult.mk T [] (some attrErr) := by
  constructor <;> simp [create_table, add_table, DatabaseCorrector.init, h]

/-- Witness for C4 at source `users(id)`, empty target. -/
theorem create_table_metadata_error_witness :
    create_table (DatabaseCorrector.init srcC3 (Schema.mk [])) ("users")
        = ActionResult.mk (Schema.mk []) [] (some attrErr) :=
  (create_table_metadata_error srcC3 (Schema.mk []) ("users")
    (Table.mk ("users") [Column.mk ("id") ("INTEGER") true] []) (by decide)).1

/-- C5 (counterexample to the claim as stated): the run on `srcC5`/`tgtC5`
has two differences; the first action fails (AttributeError on `metadata`)
and the whole run stops there with nothing recorded, although the second
action, had it executed, would have succeeded and changed the target. -/
theorem action_failure_aborts_cx :
    compare_schemas srcC5 tgtC5
      = [phraseMissingTable ++ " " ++ ("b"), msgColMissing ("колонка") ("email")]
    ∧ correct_schema (DatabaseCorrector.init srcC5 tgtC5) = (tgtC5, [], some attrErr)
    ∧ (dispatch (DatabaseCorrector.init srcC5 tgtC5)
        (msgColMissing ("колонка") ("email"))).err = none
    ∧ (dispatch (DatabaseCorrector.init srcC5 tgtC5)
        (msgColMissing ("колонка") ("email"))).target ≠ tgtC5 := by
  decide

/-- C5 (amended): failure of one action aborts the run — `correct_schema`
has no try/except, so when an action raises, the loop stops at that
action, the remaining difference messages are never dispatched, and the
exception propagates; no per-action outcome is recorded anywhere. -/
theorem action_failure_aborts (self : DatabaseCorrector) (d : String)
    (ds : List String) (e : String) (h : (dispatch self d).err = some e) :
    correct_schema_loop self (d :: ds)
      = ((dispatch self d).target, (dispatch self d).events, some e) := by
  simp [correct_schema_loop, h]

/-- Witness for C5 (amended): the failing first action of the `srcC5`
run aborts the loop with the second message still pending. -/
theorem action_failure_aborts_witness :
    correct_schema_loop (DatabaseCorrector.init srcC5 tgtC5)
        [phraseMissingTable ++ " " ++ ("b"), msgColMissing ("колонка") ("email")]
      = (tgtC5, [], some attrErr) := by
  rw [action_failure_aborts (DatabaseCorrector.init srcC5 tgtC5)
    (phraseMissingTable ++ " " ++ ("b")) [msgColMissing ("колонка") ("email")]
    attrErr (by decide)]
  decide

/-- Per-action transaction discipline: a corrective method either returns
before opening a transaction (no events, target untouched), or produces
exactly one begin/execute/commit sequence on success, or exactly one
begin/execute/rollback sequence on failure with the target unchanged. -/
def perActionTx (self : DatabaseCorrector) (r : ActionResult) : Prop :=
  (r.events = [] ∧ r.target = self.target_engine)
  ∨ (∃ d, r.events = [TxEvent.begin, TxEvent.exec d, TxEvent.commit] ∧ r.err = none)
  ∨ (∃ d e, r.events = [TxEvent.begin, TxEvent.exec d, TxEvent.rollback]
      ∧ r.target = self.target_engine ∧ r.err = some e)

theorem with_tx_spec (t : Schema) (d : DDL) :
    ((with_tx t d).events = [TxEvent.begin, TxEvent.exec d, TxEvent.commit]
      ∧ (with_tx t d).err = none)
    ∨ (∃ e, (with_tx t d).events = [TxEvent.begin, TxEvent.exec d, TxEvent.rollback]
      ∧ (with_tx t d).target = t ∧ (with_tx t d).err = some e) := by
  cases h : exec_ddl t d with
  | ok t' => exact Or.inl (by constructor <;> simp [with_tx, h])
  | error e => exact Or.inr ⟨e, by refine ⟨?_, ?_, ?_⟩ <;> simp [with_tx, h]⟩

theorem perActionTx_with_tx (self : DatabaseCorrector) (d : DDL)
    (h : self.target_engine = t) : perActionTx self (with_tx t d) := by
  unfold perActionTx
  rcases with_tx_spec t d with ⟨h1, h2⟩ | ⟨e, h1, h2, h3⟩
  · exact Or.inr (Or.inl ⟨d, h1, h2⟩)
  · exact Or.inr (Or.inr ⟨d, e, h1, by rw [h, h2], h3⟩)

/-- C6: every corrective method applies its DDL inside its own transaction
against the target: when the method reaches DDL at all, the events are one
begin / one execute / one commit on success, or one begin / one execute /
one rollback on failure with the target left unchanged; when it returns
early (lookup miss or the `metadata` attribute error), no transaction is
opened and the target is also unchanged. -/
theorem per_action_transaction (self : DatabaseCorrector)
    (table_name col_name idx_name : String) :
    perActionTx self (add_column self table_name col_name)
    ∧ perActionTx self (add_index self table_name idx_name)
    ∧ perActionTx self (add_table self table_name)
    ∧ perActionTx self (create_table self table_name) := by
  refine ⟨?_, ?_, ?_, ?_⟩
  · cases h1 : get_table self.source_engine table_name with
    | none => exact Or.inl (by simp [add_column, h1])
    | some table =>
      cases h2 : findCol table.columns col_name with
      | none => exact Or.inl (by simp [add_column, h1, h2])
      | some col =>
        have hr : add_column self table_name col_name
            = with_tx self.target_engine (DDL.addColumn table_name col) := by
          simp [add_column, h1, h2]
        rw [hr]
        exact perActionTx_with_tx self _ rfl
  · cases h1 : get_table self.source_engine table_name with
    | none => exact Or.inl (by simp [add_index, h1])
    | some table =>
      cases h2 : findIdx table.indexes idx_name with
      | none => exact Or.inl (by simp [add_index, h1, h2])
      | some idx =>
        have hr : add_index self table_name idx_name
            = with_tx self.target_engine (DDL.createIndex idx_name table_name idx.columns) := by
          simp [add_index, h1, h2]
        rw [hr]
        exact perActionTx_with_tx self _ rfl
  · cases h1 : get_table self.source_engine table_name with
    | none => exact Or.inl (by simp [add_table, h1])
    | some table =>
      cases h2 : self.metadata with
      | none => exact Or.inl (by simp [add_table, h1, h2])
      | some u =>
        have hr : add_table self table_name
            = with_tx self.target_engine (DDL.createTable (copyTable table_name table)) := by
          simp [add_table, h1, h2]
        rw [hr]
        exact perActionTx_with_tx self _ rfl
  · cases h1 : get_table self.source_engine table_name with
    | none => exact Or.inl (by simp [create_table, h1])
    | some table =>
      cases h2 : self.metadata with
      | none => exact Or.inl (by simp [create_table, h1, h2])
      | some u =>
        have hr : create_table self table_name
            = with_tx self.target_engine (DDL.createTable (copyTable table_name table)) := by
          simp [create_table, h1, h2]
        rw [hr]
        exact perActionTx_with_tx self _ rfl

theorem flatConcat_if_filter (l failing : List String) (f : String → List String) :
    flatConcat l (fun n => if strListHas failing n then [] else f n)
      = flatConcat (l.filter (fun n => !(strListHas failing n))) f := by
  induction l with
  | nil => rfl
  | cons n ns ih =>
    by_cases h : strListHas failing n = true
    · simp [flatConcat, List.filter_cons, h, ih]
    · simp only [Bool.not_eq_true] at h
      simp [flatConcat, List.filter_cons, h, ih]

/-- C7 (amended): a table whose metadata retrieval raises an
`OperationalError` is skipped and the comparison continues over all
remaining tables, but the skip leaves no trace: the returned difference
list — the run's only artifact — is exactly the one computed over the
non-failing tables, with no warning entry added. -/
theorem introspection_skip_silent (S T : Schema) (failing : List String) :
    compare_schemas_exc S T failing
      = flatConcat ((unionNames S T).filter (fun n => !(strListHas failing n)))
          (compare_one S T) := by
  unfold compare_schemas_exc
  exact flatConcat_if_filter (unionNames S T) failing (compare_one S T)

/-- C7 (counterexample to the claim as stated): with source `users(id)`
and an empty target, a comparison run in which introspection of `users`
fails returns the empty list — the skipped table is not surfaced as any
recorded warning, while the failure-free comparison does report it. -/
theorem introspection_skip_silent_cx :
    compare_schemas srcC3 (Schema.mk []) = [phraseMissingTable ++ " " ++ ("users")]
    ∧ compare_schemas_exc srcC3 (Schema.mk []) [("users")] = ([] : List String) := by
  decide

/-! ## Extending the target with objects absent from the source (C8) -/

/-- Append an extra column to the table named `tn`. -/
def extendCols (tn : String) (c : Column) (t : Table) : Table :=
  if t.name == tn then Table.mk t.name (t.columns ++ [c]) t.indexes else t

/-- The target schema with one extra column on table `tn`. -/
def addExtraColumn (s : Schema) (tn : String) (c : Column) : Schema :=
  Schema.mk (s.tables.map (extendCols tn c))

/-- Append an extra index to the table named `tn`. -/
def extendIdxs (tn : String) (i : Index) (t : Table) : Table :=
  if t.name == tn then Table.mk t.name t.columns (t.indexes ++ [i]) else t

/-- The target schema with one extra index on table `tn`. -/
def addExtraIdx (s : Schema) (tn : String) (i : Index) : Schema :=
  Schema.mk (s.tables.map (extendIdxs tn i))

/-- The column name `cn` does not occur in the source's table `tn`. -/
def colFreeInSource (S : Schema) (tn cn : String) : Bool :=
  match get_table S tn with
  | none => true
  | some tb => !(strListHas (tb.columns.map (fun c => c.name)) cn)

/-- The index name `iname` does not occur in the source's table `tn`. -/
def idxFreeInSource (S : Schema) (tn iname : String) : Bool :=
  match get_table S tn with
  | none => true
  | some tb => !(strListHas (tb.indexes.map (fun i => i.name)) iname)

theorem extendCols_name (tn : String) (c : Column) :
    ∀ t : Table, (extendCols tn c t).name = t.name := by
  intro t
  unfold extendCols
  by_cases h : (t.name == tn) = true <;> simp [h]

theorem extendIdxs_name (tn : String) (i : Index) :
    ∀ t : Table, (extendIdxs tn i t).name = t.name := by
  intro t
  unfold extendIdxs
  by_cases h : (t.name == tn) = true <;> simp [h]

theorem compare_one_addExtraColumn (S T : Schema) (tn : String) (c : Column)
    (hc : colFreeInSource S tn c.name = true) (n : String) :
    compare_one S (addExtraColumn T tn c) n = compare_one S T n := by
  cases h1 : get_table S n with
  | none => simp [compare_one, h1]
  | some stb =>
    have h2 : get_table (addExtraColumn T tn c) n
        = (get_table T n).map (extendCols tn c) := by
      unfold get_table addExtraColumn
      exact findTable_map _ (extendCols_name tn c) T.tables n
    cases h3 : get_table T n with
    | none =>
      rw [h3] at h2
      simp [compare_one, h1, h2, h3]
    | some ttb =>
      rw [h3] at h2
      by_cases h4 : (ttb.name == tn) = true
      case neg =>
        have h5 : get_table (addExtraColumn T tn c) n = some ttb := by
          rw [h2]
          simp [extendCols, h4]
        simp [compare_one, h1, h5, h3]
      case pos =>
        have h5 : get_table (addExtraColumn T tn c) n
            = some (Table.mk ttb.name (ttb.columns ++ [c]) ttb.indexes) := by
          rw [h2]
          simp [extendCols, h4]
        have hname : ttb.name = n := findTable_name T.tables n ttb h3
        have htn : n = tn := by
          rw [← hname]
          exact eq_of_beq h4
        have hcfree : strListHas (stb.columns.map (fun x => x.name)) c.name = false := by
          unfold colFreeInSource at hc
          rw [htn] at h1
          rw [h1] at hc
          simpa using hc
        simp only [compare_one, h1, h3, h5]
        congr 1
        have hpq : ∀ col ∈ stb.columns,
            (!(strListHas ((ttb.columns ++ [c]).map (fun x => x.name)) col.name))
              = (!(strListHas (ttb.columns.map (fun x => x.name)) col.name)) := by
          intro col hcol
          have hbeq : (col.name == c.name) = false := by
            cases hb : col.name == c.name
            · rfl
            · exfalso
              have heq : col.name = c.name := eq_of_beq hb
              have hin : strListHas (stb.columns.map (fun x => x.name)) c.name = true := by
                rw [← heq]
                exact strListHas_of_mem _ _ (List.mem_map_of_mem _ hcol)
              rw [hin] at hcfree
              simp at hcfree
          rw [List.map_append, strListHas_append]
          simp [strListHas, hbeq]
        rw [filter_congr_own _ _ _ hpq]

theorem compare_one_addExtraIdx (S T : Schema) (tn : String) (i : Index)
    (hi : idxFreeInSource S tn i.name = true) (n : String) :
    compare_one S (addExtraIdx T tn i) n = compare_one S T n := by
  cases h1 : get_table S n with
  | none => simp [compare_one, h1]
  | some stb =>
    have h2 : get_table (addExtraIdx T tn i) n
        = (get_table T n).map (extendIdxs tn i) := by
      unfold get_table addExtraIdx
      exact findTable_map _ (extendIdxs_name tn i) T.tables n
    cases h3 : get_table T n with
    | none =>
      rw [h3] at h2
      simp [compare_one, h1, h2, h3]
    | some ttb =>
      rw [h3] at h2
      by_cases h4 : (ttb.name == tn) = true
      case neg =>
        have h5 : get_table (addExtraIdx T tn i) n = some ttb := by
          rw [h2]
          simp [extendIdxs, h4]
        simp [compare_one, h1, h5, h3]
      case pos =>
        have h5 : get_table (addExtraIdx T tn i) n
            = some (Table.mk ttb.name ttb.columns (ttb.indexes ++ [i])) := by
          rw [h2]
          simp [extendIdxs, h4]
        have hname : ttb.name = n := findTable_name T.tables n ttb h3
        have htn : n = tn := by
          rw [← hname]
          exact eq_of_beq h4
        have hifree : strListHas (stb.indexes.map (fun x => x.name)) i.name = false := by
          unfold idxFreeInSource at hi
          rw [htn] at h1
          rw [h1] at hi
          simpa using hi
        simp only [compare_one, h1, h3, h5]
        congr 1
        have hpq : ∀ idx ∈ stb.indexes,
            (!(strListHas ((ttb.indexes ++ [i]).map (fun x => x.name)) idx.name))
              = (!(strListHas (ttb.indexes.map (fun x => x.name)) idx.name)) := by
          intro idx hidx
          have hbeq : (idx.name == i.name) = false := by
            cases hb : idx.name == i.name
            · rfl
            · exfalso
              have heq : idx.name = i.name := eq_of_beq hb
              have hin : strListHas (stb.indexes.map (fun x => x.name)) i.name = true := by
                rw [← heq]
                exact strListHas_of_mem _ _ (List.mem_map_of_mem _ hidx)
              rw [hin] at hifree
              simp at hifree
          rw [List.map_append, strListHas_append]
          simp [strListHas, hbeq]
        rw [filter_congr_own _ _ _ hpq]

theorem compare_schemas_addExtraColumn (S T : Schema) (tn : String) (c : Column)
    (hc : colFreeInSource S tn c.name = true) :
    compare_schemas S (addExtraColumn T tn c) = compare_schemas S T := by
  unfold compare_schemas compare_schemas_exc
  have hnames : unionNames S (addExtraColumn T tn c) = unionNames S T := by
    unfold unionNames tableNames addExtraColumn
    rw [mapName_of_preserve _ (extendCols_name tn c)]
  rw [hnames]
  apply flatConcat_congr
  intro n hn
  exact compare_one_addExtraColumn S T tn c hc n

theorem compare_schemas_addExtraIdx (S T : Schema) (tn : String) (i : Index)
    (hi : idxFreeInSource S tn i.name = true) :
    compare_schemas S (addExtraIdx T tn i) = compare_schemas S T := by
  unfold compare_schemas compare_schemas_exc
  have hnames : unionNames S (addExtraIdx T tn i) = unionNames S T := by
    unfold unionNames tableNames addExtraIdx
    rw [mapName_of_preserve _ (extendIdxs_name tn i)]
  rw [hnames]
  apply flatConcat_congr
  intro n hn
  exact compare_one_addExtraIdx S T tn i hi n

/-- C8: a column or index present in the target but absent from the source
table of the same name changes neither the computed difference list nor
the parsed action plan: difference detection iterates only the source
table's columns and indexes, so the extra object is never flagged and
never produces a corrective action. -/
theorem diff_one_directional (S T : Schema) (tn : String) (c : Column) (i : Index)
    (hc : colFreeInSource S tn c.name = true)
    (hi : idxFreeInSource S tn i.name = true) :
    compare_schemas S (addExtraColumn T tn c) = compare_schemas S T
    ∧ compare_schemas S (addExtraIdx T tn i) = compare_schemas S T
    ∧ plan S (addExtraColumn T tn c) = plan S T
    ∧ plan S (addExtraIdx T tn i) = plan S T := by
  have h1 := compare_schemas_addExtraColumn S T tn c hc
  have h2 := compare_schemas_addExtraIdx S T tn i hi
  refine ⟨h1, h2, ?_, ?_⟩
  · unfold plan
    rw [h1]
  · unfold plan
    rw [h2]

/-- Witness for C8: an extra `extra` column on target `users` leaves the
difference list of `users(id)` versus itself unchanged. -/
theorem diff_one_directional_witness :
    colFreeInSource srcC3 ("users") ("extra") = true
    ∧ compare_schemas srcC3 (addExtraColumn srcC3 ("users") (Column.mk ("extra") ("TEXT") true))
        = compare_schemas srcC3 srcC3 := by
  refine ⟨by decide, ?_⟩
  exact (diff_one_directional srcC3 srcC3 ("users") (Column.mk ("extra") ("TEXT") true)
    (Index.mk ("ix_extra") [("id")] false) (by decide) (by decide)).1

/-! ## Index creation and identifier handling (C9, C10) -/

/-- The uniqueness flag of the index named `iname` on table `tn` in the
schema produced by a DDL execution, when the execution succeeded and the
index exists. -/
def createdUniqueFlag (r : Except String Schema) (tn iname : String) : Option Bool :=
  match r with
  | Except.error _ => none
  | Except.ok t =>
    match get_table t tn with
    | none => none
    | some tb =>
      match findIdx tb.indexes iname with
      | none => none
      | some i => some i.unique

/-- Source with `users(email)` and a *unique* index `idx_email`. -/
def srcC9 : Schema :=
  Schema.mk [Table.mk ("users") [Column.mk ("email") ("VARCHAR") true]
    [Index.mk ("idx_email") [("email")] true]]

/-- Target with `users(email)` and no index. -/
def tgtC9 : Schema :=
  Schema.mk [Table.mk ("users") [Column.mk ("email") ("VARCHAR") true] []]

/-- The target after `add_index`: the index exists but is non-unique. -/
def tgtC9after : Schema :=
  Schema.mk [Table.mk ("users") [Column.mk ("email") ("VARCHAR") true]
    [Index.mk ("idx_email") [("email")] false]]

/-- C9 (amended): `add_index` resolves an `IndexMissing` difference to a
`CREATE INDEX` statement that reproduces the source index's ordered column
list, but its uniqueness flag is dropped: the statement carries only name,
table and columns, and whenever it executes successfully the index
recorded on the target is non-unique. -/
theorem index_unique_dropped (S T : Schema) (m : Option Unit) (tn iname : String)
    (tb : Table) (idx : Index)
    (h1 : get_table S tn = some tb) (h2 : findIdx tb.indexes iname = some idx) :
    add_index (DatabaseCorrector.mk S T m) tn iname
        = with_tx T (DDL.createIndex iname tn idx.columns)
    ∧ createdUniqueFlag (exec_ddl T (DDL.createIndex iname tn idx.columns)) tn iname
        ≠ some true := by
  constructor
  · simp [add_index, h1, h2]
  · cases h3 : get_table T tn with
    | none => simp [exec_ddl, h3, createdUniqueFlag]
    | some tb2 =>
      by_cases h4 : strListHas (tb2.indexes.map (fun i => i.name)) iname = true
      · simp [exec_ddl, h3, h4, createdUniqueFlag]
      · have h4f : strListHas (tb2.indexes.map (fun i => i.name)) iname = false := by
          simpa using h4
        by_cases h5 : (idx.columns.all
            (fun c => strListHas (tb2.columns.map (fun x => x.name)) c)) = true
        · have hname2 : tb2.name = tn := findTable_name T.tables tn tb2 h3
          have hpres : ∀ t : Table,
              ((fun t => if t.name == tn
                  then Table.mk tb2.name tb2.columns
                    (tb2.indexes ++ [Index.mk iname idx.columns false])
                  else t) t).name = t.name := by
            intro t
            by_cases h : (t.name == tn) = true
            · have ht : t.name = tn := eq_of_beq h
              simp [h, hname2, ht]
            · simp [h]
          have hget : get_table (replaceTable T tn
                (Table.mk tb2.name tb2.columns
                  (tb2.indexes ++ [Index.mk iname idx.columns false]))) tn
              = some (Table.mk tb2.name tb2.columns
                  (tb2.indexes ++ [Index.mk iname idx.columns false])) := by
            unfold get_table replaceTable
            rw [findTable_map _ hpres T.tables tn]
            have h3f : findTable T.tables tn = some tb2 := h3
            rw [h3f]
            have hb : (tb2.name == tn) = true := beq_iff_eq.mpr hname2
            simp [hb, hname2]
          have hfound : findIdx (tb2.indexes ++ [Index.mk iname idx.columns false]) iname
              = some (Index.mk iname idx.columns false) := by
            rw [findIdx_append_left_none _ _ _ (findIdx_none_of_not_has _ _ h4f)]
            simp [findIdx]
          simp [exec_ddl, h3, h4f, h5, createdUniqueFlag, hget, hfound]
        · have h5f : (idx.columns.all
              (fun c => strListHas (tb2.columns.map (fun x => x.name)) c)) = false := by
            simpa using h5
          simp [exec_ddl, h3, h4f, h5f, createdUniqueFlag]

/-- Witness for C9 (amended) at the unique source index `idx_email`. -/
theorem index_unique_dropped_witness :
    add_index (DatabaseCorrector.init srcC9 tgtC9) ("users") ("idx_email")
        = with_tx tgtC9 (DDL.createIndex ("idx_email") ("users") [("email")]) :=
  (index_unique_dropped srcC9 tgtC9 none ("users") ("idx_email")
    (Table.mk ("users") [Column.mk ("email") ("VARCHAR") true]
      [Index.mk ("idx_email") [("email")] true])
    (Index.mk ("idx_email") [("email")] true) (by decide) (by decide)).1

/-- C9 (counterexample to the claim as stated): the source index
`idx_email` is unique, the action succeeds and reproduces the ordered
column list, yet the emitted statement contains no `UNIQUE` and the index
recorded on the target is non-unique — the uniqueness flag is not
reproduced. -/
theorem index_unique_dropped_cx :
    get_table srcC9 ("users")
      = some (Table.mk ("users") [Column.mk ("email") ("VARCHAR") true]
          [Index.mk ("idx_email") [("email")] true])
    ∧ add_index (DatabaseCorrector.init srcC9 tgtC9) ("users") ("idx_email")
        = ActionResult.mk tgtC9after
            [TxEvent.begin, TxEvent.exec (DDL.createIndex ("idx_email") ("users") [("email")]),
              TxEvent.commit] none
    ∧ createdUniqueFlag (Except.ok tgtC9after) ("users") ("idx_email") = some false
    ∧ strContains (ddl_text (DDL.createIndex ("idx_email") ("users") [("email")]))
        ("UNIQUE") = false := by
  decide

/-- A table name carrying an injection payload. -/
def evilName : String :=
  "users; DROP TABLE students"

/-- Source containing a table whose very name is the injection payload. -/
def srcC10 : Schema :=
  Schema.mk [Table.mk evilName [Column.mk ("c") ("INTEGER") true] []]

/-- Target containing the same table without the column. -/
def tgtC10 : Schema :=
  Schema.mk [Table.mk evilName [] []]

/-- The target after the injected `ALTER TABLE` committed. -/
def tgtC10after : Schema :=
  Schema.mk [Table.mk evilName [Column.mk ("c") ("INTEGER") true] []]

/-- C10 (amended): there is no identifier-safety check anywhere: whenever
the source lookups succeed, `add_column` interpolates the table and column
names verbatim into the `ALTER TABLE` text and always sends that statement
to the target — the execute event occurs on every path, and no rejection
distinct from an ordinary database error exists. -/
theorem no_identifier_safety (S T : Schema) (m : Option Unit) (tn cn : String)
    (tb : Table) (col : Column)
    (h1 : get_table S tn = some tb) (h2 : findCol tb.columns cn = some col) :
    add_column (DatabaseCorrector.mk S T m) tn cn = with_tx T (DDL.addColumn tn col)
    ∧ TxEvent.exec (DDL.addColumn tn col)
        ∈ (add_column (DatabaseCorrector.mk S T m) tn cn).events
    ∧ ddl_text (DDL.addColumn tn col)
        = "\n                ALTER TABLE " ++ tn ++ "\n                ADD COLUMN "
          ++ col.name ++ " " ++ col.type ++ "\n            " := by
  have hr : add_column (DatabaseCorrector.mk S T m) tn cn
      = with_tx T (DDL.addColumn tn col) := by
    simp [add_column, h1, h2]
  refine ⟨hr, ?_, rfl⟩
  rw [hr]
  rcases with_tx_spec T (DDL.addColumn tn col) with ⟨he, _⟩ | ⟨e, he, _, _⟩ <;>
    rw [he] <;> simp

/-- Witness for C10 (amended) at the injection-named table. -/
theorem no_identifier_safety_witness :
    add_column (DatabaseCorrector.init srcC10 tgtC10) evilName ("c")
        = with_tx tgtC10 (DDL.addColumn evilName (Column.mk ("c") ("INTEGER") true)) :=
  (no_identifier_safety srcC10 tgtC10 none evilName ("c")
    (Table.mk evilName [Column.mk ("c") ("INTEGER") true] [])
    (Column.mk ("c") ("INTEGER") true) (by decide) (by decide)).1

/-- C10 (counterexample to the claim as stated): with a table name
containing an injection payload, `add_column` is not rejected: the raw
statement containing the payload is sent to the target and committed. -/
theorem identifier_injection_cx :
    add_column (DatabaseCorrector.init srcC10 tgtC10) evilName ("c")
        = ActionResult.mk tgtC10after
            [TxEvent.begin,
              TxEvent.exec (DDL.addColumn evilName (Column.mk ("c") ("INTEGER") true)),
              TxEvent.commit] none
    ∧ strContains (ddl_text (DDL.addColumn evilName (Column.mk ("c") ("INTEGER") true)))
        ("; DROP TABLE students") = true := by
  decide

end DC

